import Mathlib

/-!
Task-management: verification of the HTTP boundary helpers.

Shallow embedding of `internal/server` (error_handler.go, validation.go,
config.go, server.go, application.go) and of `auth-service/api/router.go`.

Conventions of the embedding:

* a Go `string` holding valid UTF-8 is a Lean `String`; `len(s)` is the number
  of bytes of its UTF-8 encoding (`String.utf8ByteSize`), not the number of
  characters (`String.length`);
* a Go `int` is an `Int`; the only place where the 64-bit range matters is
  `strconv.Atoi`, which checks it explicitly;
* a Go `string` that may hold bytes that are not valid UTF-8, as the text of
  an arbitrary error may, is a `GoText`;
* a Go `error` is an `Option GoError`, `none` being the nil error;
* an `http.ResponseWriter` is given by how it answers `WriteHeader` and
  `Write`, the server writer of `net/http` being one such writer;
* the process environment is a function from variable names to optional values.
-/

namespace TaskManagement

/-! ## Go error values -/

/-- The five package-level error variables declared in error_handler.go.  Each
is the result of its own `errors.New` call, so the five values are pairwise
distinct pointers. -/
inductive Sentinel
  | ErrBadRequest
  | ErrUnauthorized
  | ErrForbidden
  | ErrNotFound
  | ErrInternalServerError
  deriving DecidableEq, Repr

/-- Text given to `errors.New` for each package-level error variable. -/
def Sentinel.text : Sentinel → String
  | .ErrBadRequest => "不正なリクエストです"
  | .ErrUnauthorized => "認証が必要です"
  | .ErrForbidden => "アクセス権限がありません"
  | .ErrNotFound => "リソースが見つかりません"
  | .ErrInternalServerError => "サーバー内部エラーが発生しました"

/-- One item of a Go string as Go's UTF-8 decoding reads it from left to right:
a character that is validly encoded, or one byte that starts no valid encoding
(the decoding reads such a byte alone, with width 1). -/
inductive TextItem
  | char (c : Char)
  | invalid (byte : Nat)
  deriving DecidableEq, Repr

/-- A Go string of arbitrary bytes, as the list of the items its UTF-8
decoding reads; the empty list is the empty string.  Every string is such a
list; a list in which neighbouring invalid bytes would together encode a
character is the decoding of no string, and the theorems hold for it all the
same.  Appending to a valid string is appending the lists. -/
abbrev GoText := List TextItem

/-- A Go string that is valid UTF-8: every item is a character. -/
def GoText.ofString (s : String) : GoText := s.data.map TextItem.char

/-- Non-nil Go error values, as far as `errors.Is` and `Error()` can tell them
apart when the target is one of the package-level variables: one of those
variables, any other error that wraps nothing (a fresh `errors.New` value, for
one), an error wrapping one error (`fmt.Errorf` with one `%w`), or an error
wrapping several (`errors.Join`, `fmt.Errorf` with several `%w`).  Error types
that define their own method `Is` are not part of this model. -/
inductive GoError
  | sentinel (k : Sentinel)
  | other (text : GoText)
  | wrap (text : GoText) (inner : GoError)
  | join (text : GoText) (errs : List GoError)

/-- The method `Error()` of a non-nil error. -/
def GoError.Error : GoError → GoText
  | .sentinel k => GoText.ofString k.text
  | .other text => text
  | .wrap text _ => text
  | .join text _ => text

mutual
/-- The loop of `errors.Is(err, target)` for a non-nil `err` and a target that
is one of the package-level variables: compare, then unwrap. -/
def GoError.is : GoError → Sentinel → Bool
  | .sentinel k, target => decide (k = target)
  | .other _, _ => false
  | .wrap _ inner, target => GoError.is inner target
  | .join _ errs, target => GoError.isAny errs target
/-- The branch of `errors.Is` for `Unwrap() []error`: the first match wins. -/
def GoError.isAny : List GoError → Sentinel → Bool
  | [], _ => false
  | e :: es, target => GoError.is e target || GoError.isAny es target
end

/-- Go `errors.Is(err, target)` with a non-nil target: a nil `err` matches
nothing. -/
def errorsIs (err : Option GoError) (target : Sentinel) : Bool :=
  match err with
  | none => false
  | some e => e.is target

/-! ## error_handler.go -/

/-- The struct `ErrorResponse` with its three fields. -/
structure ErrorResponse where
  Status : Int
  Message : GoText
  Error : GoText
  deriving DecidableEq, Repr

/-- Values that occur in the JSON encoding of an `ErrorResponse`. -/
inductive JSONValue
  | num (n : Int)
  | str (s : String)
  deriving DecidableEq, Repr

/-- The character `encoding/json` writes for one item of a Go string: the
character itself, or U+FFFD for a byte that is not valid UTF-8. -/
def TextItem.jsonChar : TextItem → Char
  | .char c => c
  | .invalid _ => Char.ofNat 0xFFFD

/-- The JSON string `encoding/json` writes for a Go string: invalid UTF-8 is
replaced by U+FFFD, one for each offending byte. -/
def jsonString (t : GoText) : String := String.mk (t.map TextItem.jsonChar)

/-- The JSON object `encoding/json` produces for an `ErrorResponse`, as the
list of its members in order: `status`, `message`, and `error` unless it is the
empty string (`omitempty`). -/
def encodeErrorResponse (r : ErrorResponse) : List (String × JSONValue) :=
  [("status", JSONValue.num r.Status), ("message", JSONValue.str (jsonString r.Message))] ++
    (if r.Error = [] then [] else [("error", JSONValue.str (jsonString r.Error))])

/-- An implementation of the interface `http.ResponseWriter`, given by how it
answers the calls the handler makes on it: whether `WriteHeader(code)` panics,
the status the response carries once `WriteHeader(code)` has returned and the
body is written, and the error `Write` returns after `WriteHeader(code)` (nil
when it takes the bytes as the body). -/
structure ResponseWriter where
  rejects : Int → Bool
  status : Int → Int
  writeError : Int → Option GoError

/-- The function `bodyAllowedForStatus` of `net/http`. -/
def bodyAllowedForStatus (status : Int) : Bool :=
  !(decide (100 ≤ status ∧ status ≤ 199) || decide (status = 204) || decide (status = 304))

/-- The error `http.ErrBodyNotAllowed`. -/
def ErrBodyNotAllowed : GoError :=
  GoError.other
    (GoText.ofString "http: request method or response status code does not allow body")

/-- The response writer a `net/http` server (Go 1.19 or later) hands to a
handler, before anything is written to it, for a request other than `HEAD` on
a healthy connection.  `WriteHeader` panics on a code outside 100..999; a 1xx
code other than 101 is sent as an informational header, after which the write
of the body sends the status 200; `Write` returns `ErrBodyNotAllowed` when the
status allows no body. -/
def serverResponse : ResponseWriter :=
  { rejects := fun code => decide (code < 100 ∨ code > 999)
    status := fun code => if 100 ≤ code ∧ code ≤ 199 ∧ code ≠ 101 then 200 else code
    writeError := fun code =>
      if bodyAllowedForStatus (if 100 ≤ code ∧ code ≤ 199 ∧ code ≠ 101 then 200 else code)
      then none else some ErrBodyNotAllowed }

/-- What a call of a handler did: the header it set, the code it handed to
`WriteHeader`, the status the writer gave the response, the struct it handed
to the JSON encoder, the JSON object the writer took as the body (`none` when
`Write` returned an error), and the lines it logged. -/
structure Written where
  contentType : String
  statusCode : Int
  status : Int
  response : ErrorResponse
  body : Option (List (String × JSONValue))
  logged : List GoText
  deriving DecidableEq, Repr

def StatusBadRequest : Int := 400
def StatusUnauthorized : Int := 401
def StatusForbidden : Int := 403
def StatusNotFound : Int := 404
def StatusInternalServerError : Int := 500

/-- Go `determineStatusCode`: the first matching case of the switch. -/
def determineStatusCode (err : Option GoError) : Int :=
  if errorsIs err .ErrBadRequest then StatusBadRequest
  else if errorsIs err .ErrUnauthorized then StatusUnauthorized
  else if errorsIs err .ErrForbidden then StatusForbidden
  else if errorsIs err .ErrNotFound then StatusNotFound
  else StatusInternalServerError

/-- Go `HTTPErrorHandler` on a response writer `w`.  A nil `err` makes
`err.Error()` panic and a writer may panic in `WriteHeader`; a panic is `none`
here.  Marshalling an `ErrorResponse` cannot fail, so the encoder returns an
error exactly when `Write` does, and that error is the one logged. -/
def HTTPErrorHandler (w : ResponseWriter) (err : Option GoError) (statusCode : Int) :
    Option Written :=
  match err with
  | none => none
  | some e =>
    let statusCode := if statusCode = 0 then determineStatusCode err else statusCode
    let errorResponse : ErrorResponse :=
      { Status := statusCode, Message := e.Error, Error := [] }
    let internal := decide (statusCode = StatusInternalServerError)
    let logged : List GoText :=
      if internal then [GoText.ofString "Internal server error: " ++ e.Error] else []
    let errorResponse : ErrorResponse :=
      if internal then
        { errorResponse with
          Message := GoText.ofString "サーバー内部エラーが発生しました"
          Error := e.Error }
      else errorResponse
    if w.rejects statusCode then none
    else
      match w.writeError statusCode with
      | none =>
        some { contentType := "application/json"
               statusCode := statusCode
               status := w.status statusCode
               response := errorResponse
               body := some (encodeErrorResponse errorResponse)
               logged := logged }
      | some werr =>
        some { contentType := "application/json"
               statusCode := statusCode
               status := w.status statusCode
               response := errorResponse
               body := none
               logged := logged ++
                 [GoText.ofString "Failed to encode error response: " ++ werr.Error] }

/-- The wording "e is or wraps target" of the specification: the target is
reachable from `e` by unwrapping zero or more times. -/
inductive IsOrWraps : GoError → Sentinel → Prop
  | self (k : Sentinel) : IsOrWraps (.sentinel k) k
  | wrap (text : GoText) (inner : GoError) (t : Sentinel) :
      IsOrWraps inner t → IsOrWraps (.wrap text inner) t
  | join (text : GoText) (errs : List GoError) (e : GoError) (t : Sentinel) :
      e ∈ errs → IsOrWraps e t → IsOrWraps (.join text errs) t

/-- Go `errors.New` called somewhere else than in a package-level variable
declaration, on a text that is valid UTF-8: a fresh error that wraps nothing. -/
def errorsNew (text : String) : GoError := GoError.other (GoText.ofString text)

/-! ## validation.go -/

/-- Whether the second list starts the first one. -/
def startsWith : List Char → List Char → Bool
  | _, [] => true
  | [], _ :: _ => false
  | c :: cs, d :: ds => decide (c = d) && startsWith cs ds

/-- Whether the second list occurs in the first one as a contiguous block. -/
def containsChars : List Char → List Char → Bool
  | [], substr => startsWith [] substr
  | c :: cs, substr => startsWith (c :: cs) substr || containsChars cs substr

/-- Go `strings.Contains(s, substr)`.  On valid UTF-8 a block of bytes that
encodes `substr` starts and ends on character boundaries, so looking for the
characters finds the same occurrences as looking for the bytes. -/
def stringsContains (s substr : String) : Bool :=
  containsChars s.data substr.data

/-- Go `ValidateEmail`. -/
def ValidateEmail (email : String) : Option GoError :=
  if !stringsContains email "@" || !stringsContains email "." then
    some (errorsNew "メールアドレスの形式が不正です")
  else none

/-- Go `len(s)` for a string: its number of bytes. -/
def len (s : String) : Nat := s.utf8ByteSize

/-- Go `ValidatePassword`. -/
def ValidatePassword (password : String) : Option GoError :=
  if len password < 8 then
    some (errorsNew "パスワードは8文字以上必要です")
  else none

/-- Values an `interface{}` can hold, by dynamic type.  Integers carry their
value, floats their IEEE-754 bit pattern (all zero bits for the zero value);
`otherType` stands for every dynamic type the switch of `isEmptyValue` does not
list (unsigned integers, structs, pointers, ...). -/
inductive GoValue
  | nil
  | string (v : String)
  | int (v : Int)
  | int8 (v : Int)
  | int16 (v : Int)
  | int32 (v : Int)
  | int64 (v : Int)
  | float32 (bits : Nat)
  | float64 (bits : Nat)
  | bool (v : Bool)
  | slice (v : List GoValue)
  | map (v : List (String × GoValue))
  | otherType (tag : Nat)

/-- The Go comparison `v == 0` for `v` of static type `interface{}`.  The
untyped constant `0` is converted to `interface{}` and so gets its default
type `int`; two interface values are equal only when their dynamic types are
identical and their values equal. -/
def interfaceEqZero : GoValue → Bool
  | .int v => decide (v = 0)
  | _ => false

/-- Go `isEmptyValue`.  In a case that lists several types the variable `v`
keeps the static type `interface{}` of the switched value, so `v == 0` in the
two numeric cases is the interface comparison `interfaceEqZero`. -/
def isEmptyValue (value : GoValue) : Bool :=
  match value with
  | .nil => true
  | .string v => decide (v = "")
  | .int _ => interfaceEqZero value
  | .int8 _ => interfaceEqZero value
  | .int16 _ => interfaceEqZero value
  | .int32 _ => interfaceEqZero value
  | .int64 _ => interfaceEqZero value
  | .float32 _ => interfaceEqZero value
  | .float64 _ => interfaceEqZero value
  | .bool v => !v
  | .slice v => decide (v.length = 0)
  | .map v => decide (v.length = 0)
  | .otherType _ => false

/-- A Go `map[string]interface{}` as the list of its entries. -/
abbrev GoMap := List (String × GoValue)

/-- The error `ValidateRequiredFields` returns for a field. -/
def requiredFieldError (field : String) : GoError :=
  errorsNew ("フィールド \x27" ++ field ++ "\x27 は必須です")

/-- Go `ValidateRequiredFields`: the loop returns at the first field that is
missing or empty. -/
def ValidateRequiredFields (data : GoMap) : List String → Option GoError
  | [] => none
  | field :: rest =>
    match data.lookup field with
    | none => some (requiredFieldError field)
    | some value =>
      if isEmptyValue value then some (requiredFieldError field)
      else ValidateRequiredFields data rest

/-! ## config.go -/

/-- The process environment: the value of each variable that is set. -/
abbrev Env := String → Option String

/-- Go `os.Getenv`: the empty string for a variable that is not set. -/
def osGetenv (env : Env) (key : String) : String :=
  match env key with
  | some value => value
  | none => ""

/-- Go `getEnv`. -/
def getEnv (env : Env) (key defaultValue : String) : String :=
  let value := osGetenv env key
  if value = "" then defaultValue else value

/-- The decimal digit character of a number below ten. -/
def digitChar (d : Nat) : Char := Char.ofNat (48 + d)

/-- The decimal digits of a natural number, most significant first, `0`
giving one digit (what `strconv` writes for the magnitude). -/
def formatBits (n : Nat) : List Char :=
  if n < 10 then [digitChar n] else formatBits (n / 10) ++ [digitChar (n % 10)]
termination_by n
decreasing_by omega

/-- Go `strconv.Itoa`: a minus sign for a negative number, then the digits of
the magnitude. -/
def Itoa (i : Int) : String :=
  if i < 0 then String.mk ('-' :: formatBits i.natAbs)
  else String.mk (formatBits i.natAbs)

/-- One round of the digit loop of `strconv.Atoi`: `none` once a character is
not a decimal digit. -/
def parseStep (acc : Option Nat) (ch : Char) : Option Nat :=
  match acc with
  | none => none
  | some n =>
    if 48 ≤ ch.toNat ∧ ch.toNat ≤ 57 then some (n * 10 + (ch.toNat - 48)) else none

/-- The digit loop of `strconv.Atoi` over the characters after the sign. -/
def parseDigits (cs : List Char) : Option Nat :=
  cs.foldl parseStep (some 0)

/-- Go `strconv.Atoi` on a 64-bit platform, `none` for an error: an optional
sign, then at least one decimal digit and nothing else, and a value in the
range of `int`. -/
def Atoi (s : String) : Option Int :=
  match s.data with
  | [] => none
  | c :: cs =>
    let neg := decide (c = '-')
    let digits := if c = '-' ∨ c = '+' then cs else c :: cs
    if digits = [] then none
    else
      match parseDigits digits with
      | none => none
      | some un =>
        if !neg && decide (2 ^ 63 ≤ un) then none
        else if neg && decide (2 ^ 63 < un) then none
        else some (if neg then -(un : Int) else (un : Int))

/-- Go `getEnvAsInt`. -/
def getEnvAsInt (env : Env) (key : String) (defaultValue : Int) : Int :=
  let valueStr := getEnv env key (Itoa defaultValue)
  match Atoi valueStr with
  | none => defaultValue
  | some value => value

/-- The struct `Config`. -/
structure Config where
  Port : Int
  ReadTimeoutSec : Int
  WriteTimeoutSec : Int
  IdleTimeoutSec : Int
  DBHost : String
  DBPort : String
  DBUser : String
  DBPassword : String
  DBName : String
  JWTSecret : String
  JWTExpiryHours : Int
  JWTRefreshHours : Int
  AllowedOrigins : List String
  deriving DecidableEq, Repr

/-- Go `NewConfig`. -/
def NewConfig (env : Env) : Config :=
  { Port := getEnvAsInt env "SERVER_PORT" 8080
    ReadTimeoutSec := getEnvAsInt env "SERVER_READ_TIMEOUT" 15
    WriteTimeoutSec := getEnvAsInt env "SERVER_WRITE_TIMEOUT" 15
    IdleTimeoutSec := getEnvAsInt env "SERVER_IDLE_TIMEOUT" 60
    DBHost := getEnv env "DB_HOST" "localhost"
    DBPort := getEnv env "DB_PORT" "3306"
    DBUser := getEnv env "DB_USER" "root"
    DBPassword := getEnv env "DB_PASSWORD" "password"
    DBName := getEnv env "DB_NAME" "task_manager"
    JWTSecret := getEnv env "JWT_SECRET" "your-secret-key"
    JWTExpiryHours := getEnvAsInt env "JWT_EXPIRY_HOURS" 24
    JWTRefreshHours := getEnvAsInt env "JWT_REFRESH_HOURS" 168
    AllowedOrigins := [getEnv env "CORS_ALLOWED_ORIGINS" "*"] }

/-- Go `(*Config).GetServerAddr`: `fmt.Sprintf(":%d", c.Port)`. -/
def Config.GetServerAddr (c : Config) : String :=
  ":" ++ Itoa c.Port

/-! ## server.go and application.go -/

/-- Go `time.Second` as a `time.Duration`, in nanoseconds. -/
def Second : Int := 1000000000

/-- The fields of the `http.Server` that `NewServer` fills in, the handler
apart. -/
structure Server where
  Addr : String
  ReadTimeout : Int
  WriteTimeout : Int
  IdleTimeout : Int
  deriving DecidableEq, Repr

/-- Go `NewServer`. -/
def NewServer (env : Env) : Server :=
  { Addr := getEnv env "SERVER_ADDR" ":8080"
    ReadTimeout := 15 * Second
    WriteTimeout := 15 * Second
    IdleTimeout := 60 * Second }

/-- What starting the server does: the lines logged, in order, and the address
`ListenAndServe` listens on. -/
structure Startup where
  logged : List String
  listenAddr : String
  deriving DecidableEq, Repr

/-- Go `(*Server).Start`. -/
def Server.Start (s : Server) : Startup :=
  { logged := ["サーバーを " ++ s.Addr ++ " で起動しています..."]
    listenAddr := s.Addr }

/-- The fields `config` and `server` of the struct `Application`; `server` is
nil until `Initialize` has run. -/
structure Application where
  config : Config
  server : Option Server
  deriving DecidableEq, Repr

/-- Go `NewApplication`. -/
def NewApplication (env : Env) : Application :=
  { config := NewConfig env, server := none }

/-- Go `(*Application).Initialize`, given the outcome of the database
connection: on an error the application is left without a server. -/
def Application.Initialize (a : Application) (env : Env) (dbErr : Option GoError) :
    Except GoError Application :=
  match dbErr with
  | some err =>
    Except.error (GoError.wrap (GoText.ofString "データベース接続エラー: " ++ err.Error) err)
  | none => Except.ok { a with server := some (NewServer env) }

/-- The server start-up goroutine of Go `(*Application).Run`: it logs the
address of the configuration, then starts the server.  A nil server makes the
call panic, which is `none` here. -/
def Application.Run (a : Application) : Option Startup :=
  match a.server with
  | none => none
  | some s =>
    let started := s.Start
    some { logged :=
             ("サーバーを " ++ a.config.GetServerAddr ++ " で起動しています...") :: started.logged
           listenAddr := started.listenAddr }

/-! ## auth-service/api/router.go -/

/-- The handler functions that occur in the route table, middleware included.
`Logger` and `Recovery` are the two that `gin.Default` installs. -/
inductive HandlerFunc
  | Logger
  | Recovery
  | CORSMiddleware
  | SetCSRFToken
  | AuthRequired
  | RoleRequired (role : String)
  | health
  | Register
  | Login
  | RefreshToken
  | Logout
  | Me
  deriving DecidableEq, Repr

/-- The struct `gin.RouterGroup`: a base path and the handler chain that routes
registered on the group start with. -/
structure RouterGroup where
  basePath : String
  Handlers : List HandlerFunc
  deriving DecidableEq, Repr

/-- One entry of the route table. -/
structure Route where
  method : String
  path : String
  handlers : List HandlerFunc
  deriving DecidableEq, Repr

/-- The struct `gin.Engine`: its root group and the routes registered so far. -/
structure Engine where
  group : RouterGroup
  routes : List Route
  deriving DecidableEq, Repr

/-- The function `joinPaths` of gin on the paths used here: a base path that is
the root or has no trailing slash, and a relative path that is empty or starts
with a slash and is already clean. -/
def joinPaths (absolutePath relativePath : String) : String :=
  if relativePath = "" then absolutePath
  else if absolutePath = "/" then relativePath
  else absolutePath ++ relativePath

/-- The method `Use` of a gin group: append to its chain. -/
def RouterGroup.Use (g : RouterGroup) (middleware : HandlerFunc) : RouterGroup :=
  { g with Handlers := g.Handlers ++ [middleware] }

/-- The method `Group` of a gin group: the new group copies the chain the
parent has at that moment. -/
def RouterGroup.Group (g : RouterGroup) (relativePath : String) : RouterGroup :=
  { basePath := joinPaths g.basePath relativePath, Handlers := g.Handlers }

/-- The methods `GET` and `POST` of a gin group: the route gets the chain of
the group followed by the handler. -/
def RouterGroup.handle (g : RouterGroup) (httpMethod relativePath : String)
    (handler : HandlerFunc) (routes : List Route) : List Route :=
  routes ++ [{ method := httpMethod
               path := joinPaths g.basePath relativePath
               handlers := g.Handlers ++ [handler] }]

/-- Go `gin.New`: the root group with an empty chain and no route. -/
def ginNew : Engine :=
  { group := { basePath := "/", Handlers := [] }, routes := [] }

/-- Go `gin.Default`: `gin.New` with the logger and recovery middleware. -/
def ginDefault : Engine :=
  { ginNew with group := (ginNew.group.Use .Logger).Use .Recovery }

/-- Go `SetupRoutes` of auth-service/api/router.go, statement by statement. -/
def SetupRoutes (router : Engine) : Engine :=
  let root := router.group.Use .CORSMiddleware
  let root := root.Use .SetCSRFToken
  let routes := root.handle "GET" "/health" .health router.routes
  let v1 := root.Group "/api/v1"
  let auth := v1.Group "/auth"
  let routes := auth.handle "POST" "/register" .Register routes
  let routes := auth.handle "POST" "/login" .Login routes
  let routes := auth.handle "POST" "/refresh" .RefreshToken routes
  let routes := auth.handle "POST" "/logout" .Logout routes
  let authenticated := auth.Group ""
  let authenticated := authenticated.Use .AuthRequired
  let routes := authenticated.handle "GET" "/me" .Me routes
  let admin := v1.Group "/admin"
  let admin := admin.Use .AuthRequired
  let _admin := admin.Use (.RoleRequired "admin")
  { group := root, routes := routes }

/-- The handler chain registered for a method and path, if there is one. -/
def Engine.chain (e : Engine) (httpMethod path : String) : Option (List HandlerFunc) :=
  (e.routes.find? (fun r => decide (r.method = httpMethod) && decide (r.path = path))).map
    Route.handlers

/-- The wording "err is or wraps target" for an error that may be nil: a nil
error is not and wraps no target. -/
def Wraps (err : Option GoError) (target : Sentinel) : Prop :=
  ∃ e, err = some e ∧ IsOrWraps e target

/-- The generic message of an internal server error. -/
def genericMessage : String := "サーバー内部エラーが発生しました"

/-- Whether a field is a key of the map with a value that is not empty. -/
def FieldPresent (data : GoMap) (field : String) : Prop :=
  ∃ value, data.lookup field = some value ∧ isEmptyValue value = false

/-- An environment that sets the port and the read timeout and nothing else. -/
def envPort9090 : Env := fun key =>
  if key = "SERVER_PORT" then some "9090"
  else if key = "SERVER_READ_TIMEOUT" then some "30"
  else none

/-! ## Theorems -/

/-! ### errors.Is against the wording "is or wraps" -/

mutual
theorem GoError.is_sound : ∀ (e : GoError) (t : Sentinel), e.is t = true → IsOrWraps e t
  | .sentinel k, t, h => by
    simp only [GoError.is, decide_eq_true_eq] at h
    subst h
    exact IsOrWraps.self k
  | .other _, t, h => by simp [GoError.is] at h
  | .wrap text inner, t, h =>
    IsOrWraps.wrap text inner t (GoError.is_sound inner t (by simpa [GoError.is] using h))
  | .join text errs, t, h => by
    obtain ⟨e, he, hw⟩ := GoError.isAny_sound errs t (by simpa [GoError.is] using h)
    exact IsOrWraps.join text errs e t he hw
theorem GoError.isAny_sound :
    ∀ (es : List GoError) (t : Sentinel), GoError.isAny es t = true → ∃ e ∈ es, IsOrWraps e t
  | [], t, h => by simp [GoError.isAny] at h
  | e :: es, t, h => by
    simp only [GoError.isAny, Bool.or_eq_true] at h
    rcases h with h | h
    · exact ⟨e, List.mem_cons_self e es, GoError.is_sound e t h⟩
    · obtain ⟨e2, he2, hw⟩ := GoError.isAny_sound es t h
      exact ⟨e2, List.mem_cons_of_mem e he2, hw⟩
end

theorem GoError.isAny_of_mem (t : Sentinel) :
    ∀ (es : List GoError) (e : GoError), e ∈ es → e.is t = true → GoError.isAny es t = true
  | [], e, he, _ => by simp at he
  | x :: xs, e, he, h => by
    simp only [GoError.isAny, Bool.or_eq_true]
    rcases List.mem_cons.mp he with rfl | hmem
    · exact Or.inl h
    · exact Or.inr (GoError.isAny_of_mem t xs e hmem h)

theorem GoError.is_complete (e : GoError) (t : Sentinel) (h : IsOrWraps e t) :
    e.is t = true := by
  induction h with
  | self k => simp [GoError.is]
  | wrap text inner t _ ih => simpa [GoError.is] using ih
  | join text errs e t he _ ih =>
    simpa [GoError.is] using GoError.isAny_of_mem t errs e he ih

theorem errorsIs_iff_Wraps (err : Option GoError) (t : Sentinel) :
    errorsIs err t = true ↔ Wraps err t := by
  cases err with
  | none => simp [errorsIs, Wraps]
  | some e =>
    simp only [errorsIs, Wraps, Option.some.injEq, exists_eq_left']
    exact ⟨GoError.is_sound e t, GoError.is_complete e t⟩

/-! ### error_handler.go -/

theorem jsonString_ofString (s : String) : jsonString (GoText.ofString s) = s := by
  have h : ∀ l : List Char, List.map TextItem.jsonChar (List.map TextItem.char l) = l := by
    intro l
    induction l with
    | nil => rfl
    | cons c cs ih => simp [TextItem.jsonChar, ih]
  simp only [jsonString, GoText.ofString, h]

theorem jsonString_eq_empty (t : GoText) : jsonString t = "" ↔ t = [] := by
  constructor
  · intro h
    have hd : (jsonString t).data = [] := by rw [h]
    simpa [jsonString] using hd
  · intro h
    rw [h]
    rfl

theorem HTTPErrorHandler_internal (rw : ResponseWriter) (e : GoError) (c : Int) (w : Written)
    (b : List (String × JSONValue))
    (h : HTTPErrorHandler rw (some e) c = some w) (hs : w.statusCode = 500)
    (hb : w.body = some b) :
    b = [("status", JSONValue.num 500), ("message", JSONValue.str genericMessage)] ++
      (if e.Error = [] then [] else [("error", JSONValue.str (jsonString e.Error))]) := by
  simp only [HTTPErrorHandler] at h
  generalize (if c = 0 then determineStatusCode (some e) else c) = s at h
  cases hr : rw.rejects s with
  | true => simp [hr] at h
  | false =>
    cases hw : rw.writeError s with
    | some werr =>
      simp only [hr, hw, Bool.false_eq_true, if_false, Option.some.injEq] at h
      subst h
      simp at hb
    | none =>
      simp only [hr, hw, Bool.false_eq_true, if_false, Option.some.injEq] at h
      subst h
      simp only at hs
      simp only [Option.some.injEq] at hb
      subst hb
      simp [hs, StatusInternalServerError, encodeErrorResponse, jsonString_ofString,
        genericMessage]

/-- C1, as the claim states it, fails: two errors handled with status 500 on
the server writer of `net/http` get different bodies, and each body carries
the text of its error in the member `error`. -/
theorem HTTPErrorHandler_internal_bodies_differ :
    (HTTPErrorHandler serverResponse
        (some (errorsNew "dial tcp 10.0.0.5:3306: connection refused")) 500).map Written.body =
      some (some [("status", JSONValue.num 500), ("message", JSONValue.str genericMessage),
            ("error", JSONValue.str "dial tcp 10.0.0.5:3306: connection refused")]) ∧
    (HTTPErrorHandler serverResponse
        (some (errorsNew "sql: no rows in result set")) 0).map Written.body =
      some (some [("status", JSONValue.num 500), ("message", JSONValue.str genericMessage),
            ("error", JSONValue.str "sql: no rows in result set")]) ∧
    (HTTPErrorHandler serverResponse
        (some (errorsNew "dial tcp 10.0.0.5:3306: connection refused")) 500).map Written.body ≠
      (HTTPErrorHandler serverResponse
        (some (errorsNew "sql: no rows in result set")) 0).map Written.body := by
  decide

/-- Two errors whose texts are different bytes that are not valid UTF-8 get
the same body at status 500: both texts are written as U+FFFD. -/
theorem HTTPErrorHandler_invalid_texts_same_body :
    (HTTPErrorHandler serverResponse (some (GoError.other [TextItem.invalid 255])) 500).map
        Written.body =
      some (some [("status", JSONValue.num 500), ("message", JSONValue.str genericMessage),
            ("error", JSONValue.str (String.mk [Char.ofNat 0xFFFD]))]) ∧
    (HTTPErrorHandler serverResponse (some (GoError.other [TextItem.invalid 255])) 500).map
        Written.body =
      (HTTPErrorHandler serverResponse (some (GoError.other [TextItem.invalid 254])) 500).map
        Written.body := by
  decide

/-- C1, amended: when `HTTPErrorHandler` handles two errors with resulting
status 500 and the bodies are sent, both bodies have the status 500 and the
same generic message, and each carries in the member `error` the JSON string
of the text of its own error, that is the text with invalid UTF-8 replaced by
U+FFFD (the member is left out when the text is empty); the two bodies are
identical exactly when these JSON strings are equal. -/
theorem HTTPErrorHandler_internal_body_eq_iff (rw : ResponseWriter) (e1 e2 : GoError)
    (c1 c2 : Int) (w1 w2 : Written) (b1 b2 : List (String × JSONValue))
    (h1 : HTTPErrorHandler rw (some e1) c1 = some w1)
    (h2 : HTTPErrorHandler rw (some e2) c2 = some w2)
    (hs1 : w1.statusCode = 500) (hs2 : w2.statusCode = 500)
    (hb1 : w1.body = some b1) (hb2 : w2.body = some b2) :
    b1 = [("status", JSONValue.num 500), ("message", JSONValue.str genericMessage)] ++
        (if e1.Error = [] then [] else [("error", JSONValue.str (jsonString e1.Error))]) ∧
    b2 = [("status", JSONValue.num 500), ("message", JSONValue.str genericMessage)] ++
        (if e2.Error = [] then [] else [("error", JSONValue.str (jsonString e2.Error))]) ∧
    (b1 = b2 ↔ jsonString e1.Error = jsonString e2.Error) := by
  have hb1 := HTTPErrorHandler_internal rw e1 c1 w1 b1 h1 hs1 hb1
  have hb2 := HTTPErrorHandler_internal rw e2 c2 w2 b2 h2 hs2 hb2
  refine ⟨hb1, hb2, ?_⟩
  rw [hb1, hb2]
  have n1 := jsonString_eq_empty e1.Error
  have n2 := jsonString_eq_empty e2.Error
  constructor
  · intro h
    by_cases m1 : e1.Error = [] <;> by_cases m2 : e2.Error = [] <;> simp_all
  · intro h
    by_cases m1 : e1.Error = [] <;> by_cases m2 : e2.Error = [] <;> simp_all

theorem HTTPErrorHandler_internal_body_eq_iff_witness :
    ([("status", JSONValue.num 500), ("message", JSONValue.str genericMessage),
        ("error", JSONValue.str "find user: timeout")] =
      [("status", JSONValue.num 500), ("message", JSONValue.str genericMessage),
        ("error", JSONValue.str "timeout")] ↔
    jsonString (GoError.wrap (GoText.ofString "find user: timeout") (errorsNew "timeout")).Error =
      jsonString (errorsNew "timeout").Error) :=
  (HTTPErrorHandler_internal_body_eq_iff serverResponse
    (GoError.wrap (GoText.ofString "find user: timeout") (errorsNew "timeout"))
    (errorsNew "timeout") 0 500
    ((HTTPErrorHandler serverResponse
      (some (GoError.wrap (GoText.ofString "find user: timeout") (errorsNew "timeout"))) 0).get
        (by decide))
    ((HTTPErrorHandler serverResponse (some (errorsNew "timeout")) 500).get (by decide))
    _ _ (by simp) (by simp) (by decide) (by decide) (by decide) (by decide)).2.2

/-- C2: `determineStatusCode` returns 400 for an error that is or wraps
`ErrBadRequest`, otherwise 401 for `ErrUnauthorized`, otherwise 403 for
`ErrForbidden`, otherwise 404 for `ErrNotFound`, and 500 in every other case
(the nil error included); it returns no other code. -/
theorem determineStatusCode_spec (err : Option GoError) :
    (Wraps err .ErrBadRequest → determineStatusCode err = 400) ∧
    (¬ Wraps err .ErrBadRequest → Wraps err .ErrUnauthorized →
      determineStatusCode err = 401) ∧
    (¬ Wraps err .ErrBadRequest → ¬ Wraps err .ErrUnauthorized → Wraps err .ErrForbidden →
      determineStatusCode err = 403) ∧
    (¬ Wraps err .ErrBadRequest → ¬ Wraps err .ErrUnauthorized → ¬ Wraps err .ErrForbidden →
      Wraps err .ErrNotFound → determineStatusCode err = 404) ∧
    (¬ Wraps err .ErrBadRequest → ¬ Wraps err .ErrUnauthorized → ¬ Wraps err .ErrForbidden →
      ¬ Wraps err .ErrNotFound → determineStatusCode err = 500) ∧
    (determineStatusCode err = 400 ∨ determineStatusCode err = 401 ∨
      determineStatusCode err = 403 ∨ determineStatusCode err = 404 ∨
      determineStatusCode err = 500) := by
  simp only [← errorsIs_iff_Wraps, determineStatusCode, StatusBadRequest, StatusUnauthorized,
    StatusForbidden, StatusNotFound, StatusInternalServerError]
  cases errorsIs err .ErrBadRequest <;> cases errorsIs err .ErrUnauthorized <;>
    cases errorsIs err .ErrForbidden <;> cases errorsIs err .ErrNotFound <;> simp

theorem HTTPErrorHandler_panics (rw : ResponseWriter) (e : GoError) (c : Int)
    (h : rw.rejects (if c = 0 then determineStatusCode (some e) else c) = true) :
    HTTPErrorHandler rw (some e) c = none := by
  simp only [HTTPErrorHandler]
  generalize (if c = 0 then determineStatusCode (some e) else c) = s at h
  simp [h]

/-- C11, as the claim states it, fails on the server writer of `net/http`: for
the status-code argument 99 `WriteHeader` panics and nothing is written; for
204 the status is written but no body is sent and the failure of the encoder
is logged; for 103 the body says 103 while the response carries the status
200. -/
theorem HTTPErrorHandler_status_not_every_code :
    HTTPErrorHandler serverResponse (some (errorsNew "bad input")) 99 = none ∧
    (HTTPErrorHandler serverResponse (some (errorsNew "gone")) 204).map
        (fun w => (w.statusCode, w.body, w.logged)) =
      some (204, none,
        [GoText.ofString ("Failed to encode error response: " ++
          "http: request method or response status code does not allow body")]) ∧
    (HTTPErrorHandler serverResponse (some (errorsNew "hint")) 103).map
        (fun w => (w.statusCode, w.response.Status, w.status)) =
      some (103, 103, 200) := by
  refine ⟨by rfl, by decide, by decide⟩

/-- C11, amended: for every non-nil error and every status-code argument whose
resolved status the writer accepts in `WriteHeader`, `HTTPErrorHandler`
returns, the status it hands to `WriteHeader` is the `Status` field of the
response it hands to the encoder, that status is the argument when the
argument is not 0 and `determineStatusCode` of the error when it is 0, and when
the status is not 500 the `Message` of the response is the text of the error
and its `Error` field is empty, so the encoded object has the two members
`status` and `message` only.  That object is the body sent when `Write`
returns no error; when it returns one, nothing is sent and the failure is the
last line logged.  The status the response carries is the one the writer makes
of the status handed to it. -/
theorem HTTPErrorHandler_status_spec (rw : ResponseWriter) (e : GoError) (c : Int)
    (hok : rw.rejects (if c = 0 then determineStatusCode (some e) else c) = false) :
    ∃ w : Written,
      HTTPErrorHandler rw (some e) c = some w ∧
      w.response.Status = w.statusCode ∧
      (c ≠ 0 → w.statusCode = c) ∧
      (c = 0 → w.statusCode = determineStatusCode (some e)) ∧
      (w.statusCode ≠ 500 →
        w.response.Message = e.Error ∧ w.response.Error = [] ∧
        encodeErrorResponse w.response =
          [("status", JSONValue.num w.statusCode),
           ("message", JSONValue.str (jsonString e.Error))]) ∧
      (rw.writeError w.statusCode = none →
        w.body = some (encodeErrorResponse w.response)) ∧
      (∀ werr, rw.writeError w.statusCode = some werr →
        w.body = none ∧
        w.logged.getLast? =
          some (GoText.ofString "Failed to encode error response: " ++ werr.Error)) ∧
      w.status = rw.status w.statusCode := by
  have hstatus : ∀ s : Int, s = (if c = 0 then determineStatusCode (some e) else c) →
      (c ≠ 0 → s = c) ∧ (c = 0 → s = determineStatusCode (some e)) := by
    intro s hs
    constructor
    · intro hc
      rw [hs, if_neg hc]
    · intro hc
      rw [hs, if_pos hc]
  simp only [HTTPErrorHandler]
  generalize hs : (if c = 0 then determineStatusCode (some e) else c) = s at hok
  obtain ⟨hnz, hz⟩ := hstatus s hs.symm
  simp only [hok, Bool.false_eq_true, if_false]
  cases hw : rw.writeError s with
  | none =>
    refine ⟨_, rfl, ?_, hnz, hz, ?_, ?_, ?_, rfl⟩
    · by_cases h500 : s = StatusInternalServerError <;> simp [h500]
    · intro hne
      have h500 : ¬ s = StatusInternalServerError := hne
      simp [h500, encodeErrorResponse]
    · intro _
      rfl
    · intro werr hwerr
      simp only [hw] at hwerr
      exact absurd hwerr (by simp)
  | some werr0 =>
    refine ⟨_, rfl, ?_, hnz, hz, ?_, ?_, ?_, rfl⟩
    · by_cases h500 : s = StatusInternalServerError <;> simp [h500]
    · intro hne
      have h500 : ¬ s = StatusInternalServerError := hne
      simp [h500, encodeErrorResponse]
    · intro hnone
      simp only [hw] at hnone
      exact absurd hnone (by simp)
    · intro werr hwerr
      simp only [hw, Option.some.injEq] at hwerr
      subst hwerr
      simp

theorem HTTPErrorHandler_status_spec_witness :
    ∃ w : Written,
      HTTPErrorHandler serverResponse (some (GoError.sentinel .ErrNotFound)) 0 = some w ∧
      w.response.Status = w.statusCode ∧ w.statusCode = 404 ∧
      w.body = some [("status", JSONValue.num 404),
                     ("message", JSONValue.str "リソースが見つかりません")] := by
  obtain ⟨w, h, hs, _, hz, hbody, hsent, _, _⟩ :=
    HTTPErrorHandler_status_spec serverResponse (GoError.sentinel .ErrNotFound) 0 (by decide)
  have h404 : w.statusCode = 404 := by
    rw [hz rfl]
    decide
  refine ⟨w, h, hs, h404, ?_⟩
  have hne : w.statusCode ≠ 500 := by
    rw [h404]
    decide
  rw [hsent (by rw [h404]; rfl), (hbody hne).2.2, h404]
  simp [GoError.Error, Sentinel.text, jsonString_ofString]

/-! ### validation.go -/

theorem startsWith_nil (l : List Char) : startsWith l [] = true := by
  cases l <;> rfl

theorem containsChars_singleton (c : Char) :
    ∀ l : List Char, containsChars l [c] = true ↔ c ∈ l
  | [] => by simp [containsChars, startsWith]
  | x :: xs => by
    have ih := containsChars_singleton c xs
    simp only [containsChars, startsWith, startsWith_nil, Bool.and_true, Bool.or_eq_true,
      decide_eq_true_eq, List.mem_cons, ih]
    constructor
    · rintro (h | h)
      · exact Or.inl h.symm
      · exact Or.inr h
    · rintro (h | h)
      · exact Or.inl h.symm
      · exact Or.inr h

/-- C3: `ValidateEmail` returns no error exactly for the strings that contain
at least one `@` and at least one `.`, and returns an error for every other
string. -/
theorem ValidateEmail_spec (s : String) :
    (ValidateEmail s = none ↔ ('@' ∈ s.data ∧ '.' ∈ s.data)) ∧
    ((ValidateEmail s).isSome = true ↔ ¬ ('@' ∈ s.data ∧ '.' ∈ s.data)) := by
  have hat : stringsContains s "@" = true ↔ '@' ∈ s.data :=
    containsChars_singleton '@' s.data
  have hdot : stringsContains s "." = true ↔ '.' ∈ s.data :=
    containsChars_singleton '.' s.data
  rw [← hat, ← hdot]
  unfold ValidateEmail
  cases stringsContains s "@" <;> cases stringsContains s "." <;> simp

/-- C4 fails on the code: `ValidatePassword` compares the number of bytes, so
a password of five characters that takes fifteen bytes is accepted although it
has fewer than eight characters. -/
theorem ValidatePassword_accepts_five_characters :
    "パスワード".length = 5 ∧ len "パスワード" = 15 ∧ ValidatePassword "パスワード" = none := by
  refine ⟨by decide, by decide, by rfl⟩

/-- C9 fails on the code: of the zero values of the numeric types listed in
`isEmptyValue` only the one of type `int` is empty, and a required field
holding the `float64` zero passes `ValidateRequiredFields`. -/
theorem isEmptyValue_numeric_zero :
    isEmptyValue (.int 0) = true ∧
    isEmptyValue (.int8 0) = false ∧ isEmptyValue (.int16 0) = false ∧
    isEmptyValue (.int32 0) = false ∧ isEmptyValue (.int64 0) = false ∧
    isEmptyValue (.float32 0) = false ∧ isEmptyValue (.float64 0) = false ∧
    ValidateRequiredFields [("count", .float64 0)] ["count"] = none := by
  refine ⟨by decide, by decide, by decide, by decide, by decide, by decide, by decide, by rfl⟩

theorem ValidateRequiredFields_cons (data : GoMap) (field : String) (rest : List String) :
    (FieldPresent data field →
      ValidateRequiredFields data (field :: rest) = ValidateRequiredFields data rest) ∧
    (¬ FieldPresent data field →
      ValidateRequiredFields data (field :: rest) = some (requiredFieldError field)) := by
  unfold FieldPresent
  cases hl : data.lookup field with
  | none => simp [ValidateRequiredFields, hl]
  | some value =>
    cases hv : isEmptyValue value <;> simp [ValidateRequiredFields, hl, hv]

/-- C7: `ValidateRequiredFields` returns no error exactly when every required
field is a key of the map with a value that is not empty according to
`isEmptyValue`; otherwise it returns the error that names the first required
field, in the order of the list, that is missing or empty. -/
theorem ValidateRequiredFields_spec (data : GoMap) (requiredFields : List String) :
    (ValidateRequiredFields data requiredFields = none ↔
      ∀ field ∈ requiredFields, FieldPresent data field) ∧
    (∀ err, ValidateRequiredFields data requiredFields = some err →
      ∃ before field after, requiredFields = before ++ field :: after ∧
        (∀ f ∈ before, FieldPresent data f) ∧ ¬ FieldPresent data field ∧
        err = requiredFieldError field ∧
        err.Error = GoText.ofString ("フィールド \x27" ++ field ++ "\x27 は必須です")) := by
  induction requiredFields with
  | nil => simp [ValidateRequiredFields]
  | cons field rest ih =>
    obtain ⟨hgood, hbad⟩ := ValidateRequiredFields_cons data field rest
    by_cases hp : FieldPresent data field
    · rw [hgood hp]
      refine ⟨?_, ?_⟩
      · rw [ih.1]
        simp [hp]
      · intro err herr
        obtain ⟨before, f, after, hsplit, hall, hnot, herr2, htext⟩ := ih.2 err herr
        refine ⟨field :: before, f, after, by simp [hsplit], ?_, hnot, herr2, htext⟩
        intro g hg
        rcases List.mem_cons.mp hg with rfl | hg
        · exact hp
        · exact hall g hg
    · rw [hbad hp]
      refine ⟨?_, ?_⟩
      · simp [hp]
      · intro err herr
        cases herr
        exact ⟨[], field, rest, rfl, by simp, hp, rfl, rfl⟩

/-! ### config.go -/

theorem digitChar_toNat (d : Nat) (h : d < 10) : (digitChar d).toNat = 48 + d := by
  interval_cases d <;> rfl

theorem parseStep_digitChar (n d : Nat) (h : d < 10) :
    parseStep (some n) (digitChar d) = some (n * 10 + d) := by
  simp only [parseStep, digitChar_toNat d h]
  rw [if_pos (by omega)]
  congr 2
  omega

theorem formatBits_lt (n : Nat) (h : n < 10) : formatBits n = [digitChar n] := by
  rw [formatBits, if_pos h]

theorem formatBits_ge (n : Nat) (h : ¬ n < 10) :
    formatBits n = formatBits (n / 10) ++ [digitChar (n % 10)] := by
  rw [formatBits, if_neg h]

theorem parseDigits_formatBits (n : Nat) : parseDigits (formatBits n) = some n := by
  induction n using Nat.strong_induction_on with
  | _ n ih =>
    by_cases h : n < 10
    · rw [formatBits_lt n h]
      simp only [parseDigits, List.foldl_cons, List.foldl_nil]
      rw [parseStep_digitChar 0 n h]
      simp
    · rw [formatBits_ge n h]
      have hq := ih (n / 10) (by omega)
      simp only [parseDigits] at hq
      simp only [parseDigits, List.foldl_append, List.foldl_cons, List.foldl_nil, hq]
      rw [parseStep_digitChar (n / 10) (n % 10) (Nat.mod_lt n (by decide))]
      congr 1
      omega

theorem formatBits_digits (n : Nat) : ∀ c ∈ formatBits n, 48 ≤ c.toNat ∧ c.toNat ≤ 57 := by
  induction n using Nat.strong_induction_on with
  | _ n ih =>
    intro c hc
    by_cases h : n < 10
    · rw [formatBits_lt n h] at hc
      simp only [List.mem_singleton] at hc
      subst hc
      rw [digitChar_toNat n h]
      omega
    · rw [formatBits_ge n h] at hc
      rcases List.mem_append.mp hc with hc | hc
      · exact ih (n / 10) (by omega) c hc
      · simp only [List.mem_singleton] at hc
        subst hc
        rw [digitChar_toNat (n % 10) (Nat.mod_lt n (by decide))]
        omega

theorem formatBits_ne_nil (n : Nat) : formatBits n ≠ [] := by
  by_cases h : n < 10
  · rw [formatBits_lt n h]
    simp
  · rw [formatBits_ge n h]
    simp

/-- Parsing what `Itoa` wrote gives the number back when it is in the range of
a 64-bit `int`, and fails otherwise. -/
theorem Atoi_Itoa (d : Int) :
    Atoi (Itoa d) = if -(2 ^ 63 : Int) ≤ d ∧ d < 2 ^ 63 then some d else none := by
  have hne := formatBits_ne_nil d.natAbs
  have hparse := parseDigits_formatBits d.natAbs
  by_cases hneg : d < 0
  · simp only [Itoa, if_pos hneg, Atoi, true_or, if_true, decide_True, Bool.not_true,
      Bool.false_and, Bool.true_and, if_neg hne, hparse, Bool.false_eq_true, if_false,
      decide_eq_true_eq]
    by_cases hr : 2 ^ 63 < d.natAbs
    · rw [if_pos hr, if_neg (by omega)]
    · rw [if_neg hr, if_pos (by omega)]
      congr 1
      omega
  · simp only [Itoa, if_neg hneg, Atoi]
    cases hf : formatBits d.natAbs with
    | nil => exact absurd hf hne
    | cons c cs =>
      have hc := formatBits_digits d.natAbs c (by rw [hf]; exact List.mem_cons_self c cs)
      have hminus : c ≠ '-' := by
        intro h
        rw [h] at hc
        exact absurd hc (by decide)
      have hplus : c ≠ '+' := by
        intro h
        rw [h] at hc
        exact absurd hc (by decide)
      rw [hf] at hparse
      simp only [hminus, hplus, or_self, if_false, decide_False, Bool.not_false,
        Bool.true_and, Bool.false_and, Bool.false_eq_true, hparse, decide_eq_true_eq,
        reduceCtorEq]
      by_cases hr : 2 ^ 63 ≤ d.natAbs
      · rw [if_pos hr, if_neg (by omega)]
      · rw [if_neg hr, if_pos (by omega)]
        congr 1
        omega

theorem getEnvAsInt_default (env : Env) (key : String) (d : Int)
    (h : osGetenv env key = "") : getEnvAsInt env key d = d := by
  simp only [getEnvAsInt, getEnv, h, if_true, Atoi_Itoa]
  by_cases hr : -(2 ^ 63 : Int) ≤ d ∧ d < 2 ^ 63
  · rw [if_pos hr]
  · rw [if_neg hr]

/-- C6: `getEnvAsInt` returns the integer parsed from the variable when it is
set to a non-empty string that `strconv.Atoi` parses, and the default when the
variable is unset, empty or not parsed; so `NewConfig` yields
`JWTExpiryHours = 24` and `JWTRefreshHours = 168` when the two variables are
unset. -/
theorem getEnvAsInt_spec (env : Env) (key : String) (d : Int) :
    (∀ s v, env key = some s → s ≠ "" → Atoi s = some v → getEnvAsInt env key d = v) ∧
    (env key = none → getEnvAsInt env key d = d) ∧
    (env key = some "" → getEnvAsInt env key d = d) ∧
    (∀ s, env key = some s → Atoi s = none → getEnvAsInt env key d = d) ∧
    (env "JWT_EXPIRY_HOURS" = none → env "JWT_REFRESH_HOURS" = none →
      (NewConfig env).JWTExpiryHours = 24 ∧ (NewConfig env).JWTRefreshHours = 168) := by
  refine ⟨?_, ?_, ?_, ?_, ?_⟩
  · intro s v hs hne hv
    simp [getEnvAsInt, getEnv, osGetenv, hs, hne, hv]
  · intro hs
    exact getEnvAsInt_default env key d (by simp [osGetenv, hs])
  · intro hs
    exact getEnvAsInt_default env key d (by simp [osGetenv, hs])
  · intro s hs hv
    by_cases hne : s = ""
    · exact getEnvAsInt_default env key d (by simp [osGetenv, hs, hne])
    · simp [getEnvAsInt, getEnv, osGetenv, hs, hne, hv]
  · intro h1 h2
    exact ⟨getEnvAsInt_default env "JWT_EXPIRY_HOURS" 24 (by simp [osGetenv, h1]),
      getEnvAsInt_default env "JWT_REFRESH_HOURS" 168 (by simp [osGetenv, h2])⟩

theorem getEnvAsInt_spec_witness :
    getEnvAsInt envPort9090 "SERVER_PORT" 8080 = 9090 ∧
    getEnvAsInt envPort9090 "JWT_EXPIRY_HOURS" 24 = 24 ∧
    (NewConfig envPort9090).JWTExpiryHours = 24 ∧
    (NewConfig envPort9090).JWTRefreshHours = 168 :=
  ⟨(getEnvAsInt_spec envPort9090 "SERVER_PORT" 8080).1 "9090" 9090
      (by decide) (by decide) (by decide),
    (getEnvAsInt_spec envPort9090 "JWT_EXPIRY_HOURS" 24).2.1 (by decide),
    (getEnvAsInt_spec envPort9090 "JWT_EXPIRY_HOURS" 24).2.2.2.2 (by decide) (by decide)⟩

/-! ### server.go and application.go -/

/-- C10 fails on the code: with `SERVER_PORT=9090` and
`SERVER_READ_TIMEOUT=30` the configuration says `:9090` and 30 seconds, and
`Run` logs `:9090`, while the server made by `NewServer` listens on `:8080`
with a read timeout of 15 seconds. -/
theorem NewServer_ignores_Config :
    (NewConfig envPort9090).GetServerAddr = ":9090" ∧
    (NewConfig envPort9090).ReadTimeoutSec = 30 ∧
    (NewServer envPort9090).Addr = ":8080" ∧
    (NewServer envPort9090).ReadTimeout = 15 * Second ∧
    (((NewApplication envPort9090).Initialize envPort9090 none).toOption.bind
        Application.Run) =
      some { logged := ["サーバーを :9090 で起動しています...",
                        "サーバーを :8080 で起動しています..."]
             listenAddr := ":8080" } := by
  have hport : (NewConfig envPort9090).Port = 9090 := by decide
  have haddr : (NewConfig envPort9090).GetServerAddr = ":9090" := by
    simp [Config.GetServerAddr, hport, Itoa, formatBits, digitChar]
  refine ⟨haddr, by decide, by decide, by decide, ?_⟩
  simp only [NewApplication, Application.Initialize, Except.toOption, Option.some_bind,
    Application.Run, haddr]
  decide

/-! ### auth-service/api/router.go -/

/-- C5, as the claim states it, fails: the route `POST /api/v1/auth/logout` is
registered without `AuthRequired` in its chain. -/
theorem SetupRoutes_logout_without_AuthRequired :
    (SetupRoutes ginNew).chain "POST" "/api/v1/auth/logout" =
      some [.CORSMiddleware, .SetCSRFToken, .Logout] ∧
    HandlerFunc.AuthRequired ∉ [HandlerFunc.CORSMiddleware, .SetCSRFToken, .Logout] := by
  decide

/-- C5, amended: on an engine whose own chain does not hold `AuthRequired`,
`SetupRoutes` adds exactly six routes, `GET /health` and `POST` register,
login, refresh and logout and `GET` me under `/api/v1/auth`; the only one
registered behind `AuthRequired` is `GET /api/v1/auth/me`, the other five,
logout included, are registered without it. -/
theorem SetupRoutes_routes (router : Engine) (hbase : router.group.basePath = "/")
    (hmw : HandlerFunc.AuthRequired ∉ router.group.Handlers) :
    (SetupRoutes router).routes = router.routes ++
      [ { method := "GET", path := "/health"
          handlers := router.group.Handlers ++ [.CORSMiddleware, .SetCSRFToken, .health] },
        { method := "POST", path := "/api/v1/auth/register"
          handlers := router.group.Handlers ++ [.CORSMiddleware, .SetCSRFToken, .Register] },
        { method := "POST", path := "/api/v1/auth/login"
          handlers := router.group.Handlers ++ [.CORSMiddleware, .SetCSRFToken, .Login] },
        { method := "POST", path := "/api/v1/auth/refresh"
          handlers :=
            router.group.Handlers ++ [.CORSMiddleware, .SetCSRFToken, .RefreshToken] },
        { method := "POST", path := "/api/v1/auth/logout"
          handlers := router.group.Handlers ++ [.CORSMiddleware, .SetCSRFToken, .Logout] },
        { method := "GET", path := "/api/v1/auth/me"
          handlers :=
            router.group.Handlers ++ [.CORSMiddleware, .SetCSRFToken, .AuthRequired, .Me] } ] ∧
    (∀ r ∈ (SetupRoutes router).routes.drop router.routes.length,
      (HandlerFunc.AuthRequired ∈ r.handlers ↔
        (r.method = "GET" ∧ r.path = "/api/v1/auth/me"))) := by
  have hroutes : (SetupRoutes router).routes = router.routes ++
      [ { method := "GET", path := "/health"
          handlers := router.group.Handlers ++ [.CORSMiddleware, .SetCSRFToken, .health] },
        { method := "POST", path := "/api/v1/auth/register"
          handlers := router.group.Handlers ++ [.CORSMiddleware, .SetCSRFToken, .Register] },
        { method := "POST", path := "/api/v1/auth/login"
          handlers := router.group.Handlers ++ [.CORSMiddleware, .SetCSRFToken, .Login] },
        { method := "POST", path := "/api/v1/auth/refresh"
          handlers :=
            router.group.Handlers ++ [.CORSMiddleware, .SetCSRFToken, .RefreshToken] },
        { method := "POST", path := "/api/v1/auth/logout"
          handlers := router.group.Handlers ++ [.CORSMiddleware, .SetCSRFToken, .Logout] },
        { method := "GET", path := "/api/v1/auth/me"
          handlers :=
            router.group.Handlers ++ [.CORSMiddleware, .SetCSRFToken, .AuthRequired, .Me] } ] := by
    have j1 : joinPaths "/" "/health" = "/health" := by decide
    have j2 : joinPaths (joinPaths (joinPaths "/" "/api/v1") "/auth") "/register" =
        "/api/v1/auth/register" := by decide
    have j3 : joinPaths (joinPaths (joinPaths "/" "/api/v1") "/auth") "/login" =
        "/api/v1/auth/login" := by decide
    have j4 : joinPaths (joinPaths (joinPaths "/" "/api/v1") "/auth") "/refresh" =
        "/api/v1/auth/refresh" := by decide
    have j5 : joinPaths (joinPaths (joinPaths "/" "/api/v1") "/auth") "/logout" =
        "/api/v1/auth/logout" := by decide
    have j6 : joinPaths (joinPaths (joinPaths (joinPaths "/" "/api/v1") "/auth") "") "/me" =
        "/api/v1/auth/me" := by decide
    simp only [SetupRoutes, RouterGroup.Use, RouterGroup.Group, RouterGroup.handle, hbase,
      j1, j2, j3, j4, j5, j6, List.append_assoc, List.cons_append, List.nil_append]
  refine ⟨hroutes, ?_⟩
  rw [hroutes, List.drop_left]
  intro r hr
  simp only [List.mem_cons, List.mem_singleton, List.not_mem_nil, or_false] at hr
  rcases hr with rfl | rfl | rfl | rfl | rfl | rfl <;> simp [hmw]

theorem SetupRoutes_routes_witness :
    (SetupRoutes ginDefault).routes = ginDefault.routes ++
      [ { method := "GET", path := "/health"
          handlers := ginDefault.group.Handlers ++ [.CORSMiddleware, .SetCSRFToken, .health] },
        { method := "POST", path := "/api/v1/auth/register"
          handlers := ginDefault.group.Handlers ++ [.CORSMiddleware, .SetCSRFToken, .Register] },
        { method := "POST", path := "/api/v1/auth/login"
          handlers := ginDefault.group.Handlers ++ [.CORSMiddleware, .SetCSRFToken, .Login] },
        { method := "POST", path := "/api/v1/auth/refresh"
          handlers :=
            ginDefault.group.Handlers ++ [.CORSMiddleware, .SetCSRFToken, .RefreshToken] },
        { method := "POST", path := "/api/v1/auth/logout"
          handlers := ginDefault.group.Handlers ++ [.CORSMiddleware, .SetCSRFToken, .Logout] },
        { method := "GET", path := "/api/v1/auth/me"
          handlers :=
            ginDefault.group.Handlers ++
              [.CORSMiddleware, .SetCSRFToken, .AuthRequired, .Me] } ] ∧
    (∀ r ∈ (SetupRoutes ginDefault).routes.drop ginDefault.routes.length,
      (HandlerFunc.AuthRequired ∈ r.handlers ↔
        (r.method = "GET" ∧ r.path = "/api/v1/auth/me"))) :=
  SetupRoutes_routes ginDefault (by decide) (by decide)

end TaskManagement
